import Mathlib

/-!
# Verification of the express-plate user/authentication service

Shallow embedding of the TypeScript sources of the `express-plate` repository
(user account and authentication service) and proofs about the behaviour of
its auth core, authorization middleware and password policy.

The embedding follows the implementation that is actually mounted by the
application (`src/index.ts` → `routes/UserRoutes` → `services/UserService.ts`,
`middlewares/authMiddleware.ts`, `services/jwtService.ts`, `models/Role.ts`),
and, where a claim refers to them, the newer class-based duplicates under
`src/modules/user/`.

External collaborators (the `bcrypt` hash primitive and the `jsonwebtoken`
signing library) are not part of the repository; they are modelled from the
spec's collaborator interfaces (§6: `hash(plaintext) -> digest`,
`compare(plaintext, digest) -> bool`; §4.1: sign/verify with a secret and an
expiry). JavaScript-specific behaviour that the sources rely on (string/object
truthiness, a missed `await` on a `Promise`, `null !== undefined`,
`Array.prototype.forEach` over a value parameter) is embedded explicitly and
documented at the definition site.
-/

namespace ExpressPlate

/-! ## JavaScript-level helpers -/

/-- JS truthiness of a possibly-absent string field (`undefined` and `""` are
falsy, every other string is truthy). Request-body fields destructured from
`req.body` are modelled as `Option String`, `none` standing for `undefined`. -/
def truthyStr : Option String → Bool
  | none => false
  | some s => !s.isEmpty

/-- JS truthiness of the numeric `req.user.id` field (`undefined` and `0` are
falsy). Used by the `if (!req.user.id)` guards of the handlers. -/
def truthyId : Option Nat → Bool
  | none => false
  | some n => n != 0

/-- `String.prototype.toLowerCase` restricted to the character data
(ASCII-adequate for the role strings this code applies it to). -/
def jsToLower (s : String) : String := String.mk (s.data.map Char.toLower)

/-- `String.prototype.toUpperCase`, as `jsToLower`. -/
def jsToUpper (s : String) : String := String.mk (s.data.map Char.toUpper)

/-- A JS `Promise` that would resolve to a value of type `α`.  Only its object
identity matters to the code below: `src/middlewares/authMiddleware.ts` tests
the truthiness of a promise it forgot to `await`. -/
structure JsPromise (α : Type) where
  resolvesTo : α
deriving DecidableEq, Repr

/-- Truthiness of a `Promise` object: in JavaScript every object is truthy,
whatever it resolves to. -/
def jsTruthyObject {α : Type} (_ : JsPromise α) : Bool := true

/-! ## Data model (`models/User.ts`, `models/Role.ts`) -/

/-- A row of the `User` entity.  `role` is stored as its string value
(`"USER"` or `"ADMIN"` when well-formed), which is how the enum value
travels through the JS code. -/
structure UserRec where
  id : Nat
  name : String
  email : String
  password : String
  role : String
  createdAt : Nat
  updatedAt : Nat
deriving DecidableEq, Repr

/-- `isRole` from `models/Role.ts`: membership in `Object.values(Role)`,
i.e. exactly the strings "ADMIN" and "USER" (case-sensitive). -/
def isRole (s : String) : Bool := s == "ADMIN" || s == "USER"

/-- An `AppError` (or, for status 500, a plain `Error` as rendered by
`errorHandler`): the status code and message the request boundary turns into
the HTTP response. -/
structure AppErr where
  status : Nat
  msg : String
deriving DecidableEq, Repr

/-- `toRole` from `models/Role.ts`: returns the canonical role value, and for
any other input throws a plain `Error` (which the outer `errorHandler` turns
into a generic 500 response).  The thrown case is modelled as status 500. -/
def toRole (s : String) : Except AppErr String :=
  if s == "ADMIN" then .ok "ADMIN"
  else if s == "USER" then .ok "USER"
  else .error ⟨500, "Unknown role : " ++ s⟩

/-- The Account Store: the `User` table plus the next value of the
auto-generated primary key. -/
structure Store where
  users : List UserRec
  nextId : Nat
deriving DecidableEq, Repr

/-- `userRepository.findOne({ where: { id } })`. -/
def findById (store : Store) (id : Nat) : Option UserRec :=
  store.users.find? (fun u => u.id == id)

/-- `userRepository.findOne({ where: { name } })`. -/
def findByName (store : Store) (name : String) : Option UserRec :=
  store.users.find? (fun u => u.name == name)

/-- `userRepository.findOne({ where: { email } })`. -/
def findByEmail (store : Store) (email : String) : Option UserRec :=
  store.users.find? (fun u => u.email == email)

/-- `userRepository.save(entity)` for an entity that already has its id:
updates the row with that primary key. -/
def saveUser (store : Store) (u : UserRec) : Store :=
  { store with users := store.users.map (fun v => if v.id == u.id then u else v) }

/-- `userRepository.create(...)` followed by `save` for a fresh entity:
appends a row, assigning the generated id. -/
def insertUser (store : Store) (u : UserRec) : Store :=
  { users := store.users ++ [u], nextId := store.nextId + 1 }

/-! ## The password-policy regex

`services/UserService.ts` line 10:

`const passwordRegex = /^.*(?=.{8,})(?=.*[a-zA-Z])(?=.*\d)(?=.*[!#$%&? "]).*$/;`

The pattern is transcribed token by token into a small matcher for the
constructs it uses (single character classes, `*` over a character class,
positive lookahead, the `$` anchor; `^` is the start of the matching, and
`passwordRegex.test` asks whether any match starting there exists).  JS
regex semantics without the `m`/`s` flags: `.` matches any character except
the line terminators `\n`, `\r`, U+2028, U+2029, and `$` matches only at the
very end of the input. -/

/-- The JS regex metacharacter `.` (no `s` flag): any char except a line
terminator. -/
def jsDot (c : Char) : Bool :=
  !(c == '\n' || c == '\r' || c == ' ' || c == ' ')

/-- The character class `[a-zA-Z]`. -/
def asciiLetter (c : Char) : Bool :=
  ('a' ≤ c && c ≤ 'z') || ('A' ≤ c && c ≤ 'Z')

/-- The character class `\d` = `[0-9]`. -/
def asciiDigit (c : Char) : Bool := '0' ≤ c && c ≤ '9'

/-- The character class `[!#$%&? "]` of `services/UserService.ts`. -/
def pwdSymbol (c : Char) : Bool :=
  (['!', '#', '$', '%', '&', '?', ' ', '"'] : List Char).contains c

/-- The character class `[!@#$%&? "]` of the duplicate regex in
`modules/user/user.service.ts` (it additionally lists `@`). -/
def pwdSymbolModule (c : Char) : Bool :=
  (['!', '@', '#', '$', '%', '&', '?', ' ', '"'] : List Char).contains c

/-- Regex tokens: a single character-class atom, a starred character-class
atom, and the `$` anchor. -/
inductive RTok where
  | one : (Char → Bool) → RTok
  | many : (Char → Bool) → RTok
  | atEnd : RTok

/-- Existence of a match of the token sequence against some prefix of the
input (the standard nondeterministic-backtracking semantics: `many f`
consumes any run of characters satisfying `f`, trying every length;
`atEnd` requires the remaining input to be empty; an exhausted token list
accepts, leaving the rest of the input unconsumed). -/
def rmatch : List RTok → List Char → Bool
  | [], _ => true
  | RTok.one f :: ts, s =>
    match s with
    | [] => false
    | c :: s' => f c && rmatch ts s'
  | RTok.many f :: ts, s =>
    (List.range (s.length + 1)).any (fun i => (s.take i).all f && rmatch ts (s.drop i))
  | RTok.atEnd :: ts, s => s.isEmpty && rmatch ts s

/-- The sub-pattern of the lookahead `(?=.{8,})`. -/
def lookLen8 : List RTok :=
  [RTok.one jsDot, RTok.one jsDot, RTok.one jsDot, RTok.one jsDot,
   RTok.one jsDot, RTok.one jsDot, RTok.one jsDot, RTok.one jsDot,
   RTok.many jsDot]

/-- The sub-pattern of the lookahead `(?=.*[a-zA-Z])`. -/
def lookLetter : List RTok := [RTok.many jsDot, RTok.one asciiLetter]

/-- The sub-pattern of the lookahead `(?=.*\d)`. -/
def lookDigit : List RTok := [RTok.many jsDot, RTok.one asciiDigit]

/-- The sub-pattern of the lookahead `(?=.*[!#$%&? "])`. -/
def lookSymbol : List RTok := [RTok.many jsDot, RTok.one pwdSymbol]

/-- `passwordRegex.test(s)` of `services/UserService.ts` on the character
data of `s`: the anchored pattern
`^.*(?=.{8,})(?=.*[a-zA-Z])(?=.*\d)(?=.*[!#$%&? "]).*$` matches iff the
leading `.*` can consume some prefix of `i` dot-characters such that, at
that position, each zero-width lookahead matches a prefix of the remaining
input, and the trailing `.*$` consumes exactly the remaining input. -/
def passwordRegexTest (s : List Char) : Bool :=
  (List.range (s.length + 1)).any (fun i =>
    (s.take i).all jsDot &&
    rmatch lookLen8 (s.drop i) &&
    rmatch lookLetter (s.drop i) &&
    rmatch lookDigit (s.drop i) &&
    rmatch lookSymbol (s.drop i) &&
    rmatch [RTok.many jsDot, RTok.atEnd] (s.drop i))

/-- Same test at the `String` level. -/
def passwordRegexTestStr (s : String) : Bool := passwordRegexTest s.data

/-- The claim's reading of the password policy, written from its words:
“length at least 8, at least one ASCII letter, at least one digit, at least
one character from exactly the set `{! # $ % & ? space \x22}`”. -/
def claimedPasswordOk (s : List Char) : Bool :=
  decide (8 ≤ s.length) && s.any asciiLetter && s.any asciiDigit && s.any pwdSymbol

/-! ## Token Service (`services/jwtService.ts`)

`jsonwebtoken` is an external library; per the spec (§4.1) a signed token is a
self-contained claims bundle that verifies against the secret it was signed
with, and verification also fails once the token is expired.  A token string
is related to its claims by the ambient codec `Env.decode` (the library's
parsing of the wire format); signing a payload yields a fresh, unexpired
token carrying the signing secret. -/

/-- The payload of both token kinds: `{ id, name, role }`. -/
structure JwtPayload where
  id : Nat
  name : String
  role : String
deriving DecidableEq, Repr

/-- Modelled from the spec: a signed, time-bounded token — its claims, the
secret it was signed with, and whether its lifetime has elapsed. -/
structure SignedToken where
  payload : JwtPayload
  secret : String
  expired : Bool
deriving DecidableEq, Repr

/-- The ambient configuration and external collaborators: the two JWT
secrets from the environment, the credential hasher (`bcrypt.hash` /
`bcrypt.compare`, modelled from the spec's `hash(plaintext) -> digest`,
`compare(plaintext, digest) -> bool`), and the token codec mapping a token
string to the signed token it denotes (`none` for strings that are not
well-formed tokens). -/
structure Env where
  accessSecret : String
  refreshSecret : String
  hash : String → String
  cmp : String → String → Bool
  decode : String → Option SignedToken

/-- `JwtService.generateAccessToken`: fails with 500 if the access secret is
unset (falsy), otherwise signs the payload with the access secret. -/
def generateAccessToken (env : Env) (p : JwtPayload) : Except AppErr SignedToken :=
  if env.accessSecret == "" then .error ⟨500, "Missing JWT SECRET in .env."⟩
  else .ok ⟨p, env.accessSecret, false⟩

/-- `JwtService.generateRefreshToken`, symmetric with the refresh secret. -/
def generateRefreshToken (env : Env) (p : JwtPayload) : Except AppErr SignedToken :=
  if env.refreshSecret == "" then .error ⟨500, "Missing JWT REFRESH SECRET in .env."⟩
  else .ok ⟨p, env.refreshSecret, false⟩

/-- `JwtService.verifyAccessToken`: `jwt.verify` against the access secret,
with any failure (unparsable, wrong secret, expired) converted to a 401
`AppError`. -/
def verifyAccessToken (env : Env) (s : String) : Except AppErr JwtPayload :=
  match env.decode s with
  | some tok =>
    if tok.secret == env.accessSecret && !tok.expired then .ok tok.payload
    else .error ⟨401, "Invalid or expired token"⟩
  | none => .error ⟨401, "Invalid or expired token"⟩

/-- `JwtService.verifyRefreshToken`, symmetric with the refresh secret. -/
def verifyRefreshToken (env : Env) (s : String) : Except AppErr JwtPayload :=
  match env.decode s with
  | some tok =>
    if tok.secret == env.refreshSecret && !tok.expired then .ok tok.payload
    else .error ⟨401, "Invalid or expired refresh token"⟩
  | none => .error ⟨401, "Invalid or expired refresh token"⟩

/-! ## HTTP responses -/

/-- A JSON field value (the columns of `User` are numbers, strings and
dates; dates are carried as numeric timestamps here). -/
inductive Val where
  | nat : Nat → Val
  | str : String → Val
deriving DecidableEq, Repr

/-- The value of a `User` column by its TypeORM `select` name. -/
def fieldValue (u : UserRec) : String → Val
  | "id" => .nat u.id
  | "name" => .str u.name
  | "email" => .str u.email
  | "password" => .str u.password
  | "role" => .str u.role
  | "createdAt" => .nat u.createdAt
  | "updatedAt" => .nat u.updatedAt
  | _ => .str ""

/-- A row produced by a `findOne`/`find` with a `select` list: only the
selected columns appear, as key/value pairs. -/
def selectRow (fields : List String) (u : UserRec) : List (String × Val) :=
  fields.map (fun f => (f, fieldValue u f))

/-- The observable parts of a successful HTTP response: status code, the
refresh-token cookie set by `res.cookie` (if any), whether the refresh
cookie was cleared, the user object(s) serialized in the body, and the
access token placed in the body (if any). -/
structure HttpResponse where
  status : Nat
  cookieSet : Option SignedToken
  cookieCleared : Bool
  bodyUsers : List (List (String × Val))
  bodyAccessToken : Option SignedToken
deriving DecidableEq, Repr

/-! ## Auth Core (`services/UserService.ts`) -/

/-- `testCredentials`: pick the lookup key — the email when it is truthy,
otherwise the name — then 404 when no user matches, 401 when the password
does not match the stored hash. -/
def testCredentials (env : Env) (store : Store)
    (name email : Option String) (password : String) : Except AppErr UserRec :=
  let user? :=
    if truthyStr email then findByEmail store (email.getD "")
    else findByName store (name.getD "")
  match user? with
  | none => .error ⟨404, "Unable to find user."⟩
  | some u =>
    if !env.cmp password u.password then .error ⟨401, "Incorrect password."⟩
    else .ok u

/-- `prepareTokens`: generate the access/refresh pair for the user (the
`login` helper), attach the refresh token to the scoped cookie and answer
with `{ user: { id, name, role }, accessToken }`. -/
def prepareTokens (env : Env) (status : Nat) (u : UserRec) : Except AppErr HttpResponse := do
  let access ← generateAccessToken env ⟨u.id, u.name, u.role⟩
  let refresh ← generateRefreshToken env ⟨u.id, u.name, u.role⟩
  pure { status := status
         cookieSet := some refresh
         cookieCleared := false
         bodyUsers := [[("id", Val.nat u.id), ("name", Val.str u.name), ("role", Val.str u.role)]]
         bodyAccessToken := some access }

/-- The shape of a request body for registration/login/password change. -/
structure AuthBody where
  name : Option String
  email : Option String
  password : Option String
deriving DecidableEq, Repr

/-- `createUser` (registration): missing-field check (400), email conflict
(409), name conflict (409), password policy (400), then hash, insert with the
generated id and default role, and log the fresh user in with status 201.
Returns the outcome together with the resulting store. -/
def createUser (env : Env) (store : Store) (body : AuthBody) :
    Except AppErr HttpResponse × Store :=
  if !truthyStr body.name || !truthyStr body.email || !truthyStr body.password then
    (.error ⟨400, "You need a name, an e-mail and a password to create a user account."⟩, store)
  else if (findByEmail store (body.email.getD "")).isSome then
    (.error ⟨409, "E-mail :" ++ body.email.getD "" ++
      " is already in use, please try a different one."⟩, store)
  else if (findByName store (body.name.getD "")).isSome then
    -- the source's message interpolates ${email} here, not the name
    (.error ⟨409, "Username :" ++ body.email.getD "" ++
      " is already in use, please try a different one."⟩, store)
  else if !passwordRegexTestStr (body.password.getD "") then
    (.error ⟨400, "Invalid password format."⟩, store)
  else
    let u : UserRec :=
      { id := store.nextId
        name := body.name.getD ""
        email := body.email.getD ""
        password := env.hash (body.password.getD "")
        role := "USER"
        createdAt := 0
        updatedAt := 0 }
    (prepareTokens env 201 u, insertUser store u)

/-- `loginUser`: 400 unless the password and at least one identifier are
present, then `testCredentials` followed by `prepareTokens` at 200. -/
def loginUser (env : Env) (store : Store) (body : AuthBody) : Except AppErr HttpResponse := do
  if !truthyStr body.password || (!truthyStr body.name && !truthyStr body.email) then
    throw ⟨400, "Invalid credentials."⟩
  let u ← testCredentials env store body.name body.email (body.password.getD "")
  prepareTokens env 200 u

/-- `refreshToken` handler: 400 when the scoped cookie is absent/falsy,
verify the refresh token, then answer with a newly minted access token only
— no `res.cookie` call, so the refresh cookie is not rotated. -/
def refreshHandler (env : Env) (cookie : Option String) : Except AppErr HttpResponse := do
  if !truthyStr cookie then throw ⟨400, "Missing refresh token."⟩
  let decoded ← verifyRefreshToken env (cookie.getD "")
  let newAccess ← generateAccessToken env ⟨decoded.id, decoded.name, decoded.role⟩
  pure { status := 200
         cookieSet := none
         cookieCleared := false
         bodyUsers := []
         bodyAccessToken := some newAccess }

/-- `getProfile`: 401 when `req.user.id` is falsy, 404 when the row is gone,
otherwise the row restricted to `select: ["id", "name", "email", "role"]`. -/
def getProfile (store : Store) (authId : Option Nat) : Except AppErr HttpResponse :=
  if !truthyId authId then
    .error ⟨401, "You need to be logged in to access your profile."⟩
  else
    match findById store (authId.getD 0) with
    | none => .error ⟨404, "User not found."⟩
    | some u =>
      .ok { status := 200
            cookieSet := none
            cookieCleared := false
            bodyUsers := [selectRow ["id", "name", "email", "role"] u]
            bodyAccessToken := none }

/-- `getAllUser`: every row, restricted to
`select: ["id", "name", "email", "role", "createdAt", "updatedAt"]`. -/
def getAllUser (store : Store) : Except AppErr HttpResponse :=
  .ok { status := 200
        cookieSet := none
        cookieCleared := false
        bodyUsers := store.users.map (selectRow ["id", "name", "email", "role", "createdAt", "updatedAt"])
        bodyAccessToken := none }

/-- `getUser`: 404 when the path parameter is missing, 404 when no row has
the parsed id, otherwise the row restricted to
`select: ["id", "name", "role"]` (the parsed id is taken as given). -/
def getUser (store : Store) (idParam : Option Nat) : Except AppErr HttpResponse :=
  match idParam with
  | none => .error ⟨404, "Missing userId."⟩
  | some i =>
    match findById store i with
    | none => .error ⟨404, "User not found."⟩
    | some u =>
      .ok { status := 200
            cookieSet := none
            cookieCleared := false
            bodyUsers := [selectRow ["id", "name", "role"] u]
            bodyAccessToken := none }

/-- The shape of a profile-update request body. -/
structure UpdateBody where
  name : Option String
  email : Option String
  role : Option String
deriving DecidableEq, Repr

/-- The three guarded field assignments of `updateUser`
(`if (email) ...; if (name) ...; if (role && isRole(role.toUpperCase())) ...`):
each body field is applied only when it is truthy, and the role additionally
only when `isRole(role.toUpperCase())` holds (an invalid role is skipped
without error). -/
def applyUpdateFields (body : UpdateBody) (u : UserRec) : UserRec :=
  let u1 := if truthyStr body.email then { u with email := body.email.getD "" } else u
  let u2 := if truthyStr body.name then { u1 with name := body.name.getD "" } else u1
  if truthyStr body.role && isRole (jsToUpper (body.role.getD "")) then
    { u2 with role := jsToUpper (body.role.getD "") }
  else u2

/-- `updateUser` of `services/UserService.ts`: 401 when not logged in, 404
when the row is gone, then `applyUpdateFields`, save, and re-issue tokens at
200.  Returns the outcome together with the resulting store. -/
def updateUser_serv (env : Env) (store : Store) (authId : Option Nat)
    (body : UpdateBody) : Except AppErr HttpResponse × Store :=
  if !truthyId authId then
    (.error ⟨401, "You need to be logged in to update your profile."⟩, store)
  else
    match findById store (authId.getD 0) with
    | none => (.error ⟨404, "User not found."⟩, store)
    | some u =>
      let u3 := applyUpdateFields body u
      (prepareTokens env 200 u3, saveUser store u3)

/-- `updatePassword` of `services/UserService.ts`: 401 when not logged in,
404 when the row is gone, 401 when the supplied current password does not
match the stored hash, 400 when the new password fails the policy regex,
then hash, save and re-issue tokens at 200. -/
def updatePassword_serv (env : Env) (store : Store) (authId : Option Nat)
    (password newPassword : Option String) : Except AppErr HttpResponse × Store :=
  if !truthyId authId then
    (.error ⟨401, "You need to be logged in to update your profile."⟩, store)
  else
    match findById store (authId.getD 0) with
    | none => (.error ⟨404, "User not found."⟩, store)
    | some u =>
      if !env.cmp (password.getD "") u.password then
        (.error ⟨401, "Incorrect password."⟩, store)
      else if !passwordRegexTestStr (newPassword.getD "") then
        (.error ⟨400, "Invalid password format."⟩, store)
      else
        let u1 := { u with password := env.hash (newPassword.getD "") }
        (prepareTokens env 200 u1, saveUser store u1)

/-- `UserService.updateUser` of `modules/user/user.service.ts`: look the user
up (404), apply truthy fields, but pass the role through `toRole`, which
throws on anything but the exact strings "ADMIN"/"USER". -/
def updateUser_mod (store : Store) (id : Nat) (body : UpdateBody) :
    Except AppErr UserRec × Store :=
  match findById store id with
  | none => (.error ⟨404, "User not found."⟩, store)
  | some u =>
    let u1 := if truthyStr body.email then { u with email := body.email.getD "" } else u
    let u2 := if truthyStr body.name then { u1 with name := body.name.getD "" } else u1
    if truthyStr body.role then
      match toRole (body.role.getD "") with
      | .error e => (.error e, store)
      | .ok r =>
        let u3 := { u2 with role := r }
        (.ok u3, saveUser store u3)
    else
      (.ok u2, saveUser store u2)

/-! ## Authorization Gate (`middlewares/authMiddleware.ts`) -/

/-- `checkUserExist` of `services/UserService.ts`, called from the
middleware.  It is `async`, so the call site receives a `Promise`.  The
resolved value is `user !== undefined` — and since TypeORM's `findOne`
resolves to the entity or to `null` (never `undefined`), that comparison is
`true` in both cases. -/
def checkUserExist (store : Store) (id : Nat) : JsPromise Bool :=
  ⟨match findById store id with
   | some _ => true   -- entity !== undefined
   | none => true⟩    -- null !== undefined

/-- `String.prototype.startsWith`, on the character data. -/
def jsStartsWith (s pre : String) : Bool := pre.data.isPrefixOf s.data

/-- `String.prototype.split(" ")` on the character data: the maximal runs of
non-space characters, with empty runs kept, as in JS. -/
def jsSplitSpaceAux : List Char → List Char → List String
  | [], acc => [String.mk acc.reverse]
  | c :: cs, acc =>
    if c == ' ' then String.mk acc.reverse :: jsSplitSpaceAux cs []
    else jsSplitSpaceAux cs (c :: acc)

/-- `s.split(" ")`. -/
def jsSplitSpace (s : String) : List String := jsSplitSpaceAux s.data []

/-- `authenticate`: 401 when the `Authorization` header is missing or does
not start with the literal `Bearer ` prefix; verify the token that follows
the first space (`authHeader.split(" ")[1]`); then the deleted-account
re-check — the source tests `!checkUserExist(decoded.id)` without `await`,
i.e. the truthiness of the `Promise` object itself, so the branch never
throws — and attach the decoded identity. -/
def authenticate (env : Env) (store : Store) (authHeader : Option String) :
    Except AppErr JwtPayload := do
  match authHeader with
  | none => throw ⟨401, "You need to be logged in."⟩
  | some h =>
    if !jsStartsWith h "Bearer " then throw ⟨401, "You need to be logged in."⟩
    let token := (jsSplitSpace h).getD 1 ""
    let decoded ← verifyAccessToken env token
    if !jsTruthyObject (checkUserExist store decoded.id) then
      throw ⟨401, "User no longer exists."⟩
    pure decoded

/-- `authorize(allowedRoles)`: the source first runs
`allowedRoles.forEach((role) => { role = role.toLowerCase(); })`, which
reassigns the callback's value parameter and therefore leaves the array
unchanged — the lowered list is computed here and discarded, as in the
source.  The guard then 401s when no identity is attached and 403s when the
(unchanged) list does not contain the identity's lowercased role. -/
def authorize (allowedRoles : List String) (user : Option JwtPayload) :
    Except AppErr Unit :=
  let _lowered := allowedRoles.map jsToLower
  match user with
  | none => .error ⟨401, "You need to be logged in to access this ressource."⟩
  | some u =>
    if !allowedRoles.contains (jsToLower u.role) then
      .error ⟨403, "Forbidden: Insuffisant rights to access this ressource."⟩
    else .ok ()

/-! ## Reference fixtures used by witnesses -/

/-- A concrete environment: distinct nonempty secrets, a trivial injective
hasher, and a codec knowing one access token for subject 7 and one refresh
token for subject 5. -/
def refEnv : Env :=
  { accessSecret := "as"
    refreshSecret := "rs"
    hash := fun p => String.append "h:" p
    cmp := fun p d => d == String.append "h:" p
    decode := fun s =>
      if s == "acc7" then some ⟨⟨7, "ghost", "USER"⟩, "as", false⟩
      else if s == "ref5" then some ⟨⟨5, "alice", "USER"⟩, "rs", false⟩
      else none }

/-- A concrete user row. -/
def aliceRec : UserRec :=
  { id := 5, name := "alice", email := "alice@x.com"
    password := "h:Passw0rd!", role := "USER", createdAt := 0, updatedAt := 0 }

/-- A concrete store holding only `aliceRec`. -/
def refStore : Store := { users := [aliceRec], nextId := 6 }

/-! ## Theorems -/

/-- C1: for every request carrying a well-formed Bearer access token that
verifies against the access secret but whose subject id has no User record,
the `authenticate` middleware nonetheless SUCCEEDS and attaches the decoded
identity: the source tests `!checkUserExist(decoded.id)` on the un-awaited
`Promise`, which is an object and hence truthy, so the deleted-account check
never fires (and `checkUserExist` itself resolves to `user !== undefined`,
which is also true for TypeORM's `null`).  This contradicts the claim's
required 401 "account no longer exists" failure: the claim (and the
middleware's own doc comment and dead error message) describe the intent,
the code is the slip. -/
theorem authenticate_deleted_user_passes
    (env : Env) (store : Store) (h : String) (tok : SignedToken)
    (hpre : jsStartsWith h "Bearer " = true)
    (hdec : env.decode ((jsSplitSpace h).getD 1 "") = some tok)
    (hsec : tok.secret = env.accessSecret)
    (hexp : tok.expired = false)
    (_hgone : findById store tok.payload.id = none) :
    authenticate env store (some h) = .ok tok.payload := by
  simp only [List.getD, List.get?_eq_getElem?] at hdec
  simp [authenticate, verifyAccessToken, hpre, hdec, hsec, hexp, jsTruthyObject]

/-- Witness for C1: the access token "acc7" of `refEnv` names subject 7,
which `refStore` does not contain, yet authentication succeeds. -/
theorem authenticate_deleted_user_passes_witness :
    authenticate refEnv refStore (some "Bearer acc7") = .ok ⟨7, "ghost", "USER"⟩ :=
  authenticate_deleted_user_passes refEnv refStore "Bearer acc7"
    ⟨⟨7, "ghost", "USER"⟩, "as", false⟩
    (by decide) (by decide) (by decide) (by decide) (by decide)

/-- C2: the `authorize` guard is NOT case-insensitive: an identity whose
role "ADMIN" matches the declared accepted role "Admin" up to case is
rejected with 403.  The source's `allowedRoles.forEach((role) => { role =
role.toLowerCase(); })` reassigns the callback's value parameter and never
writes back into the array, so the un-lowered list is compared against the
lowercased identity role.  The claim (and the lowering attempt itself)
describe the intent; the code is the slip — in particular the mounted route
`authorize(["Admin"])` rejects every stored role "ADMIN". -/
theorem authorize_rejects_case_insensitive_match (i : Nat) (n : String) :
    jsToLower "ADMIN" = jsToLower "Admin" ∧
    authorize ["Admin"] (some ⟨i, n, "ADMIN"⟩) =
      .error ⟨403, "Forbidden: Insuffisant rights to access this ressource."⟩ := by
  constructor
  · rfl
  · rfl

/-- Replacing the (first-found) row with key `i` in a row list makes a
subsequent lookup of `i` return the replacement. -/
theorem find?_map_replace (l : List UserRec) (i : Nat) (u w : UserRec)
    (hw : w.id = u.id) (h : l.find? (fun v => v.id == i) = some u) :
    (l.map (fun v => if v.id == w.id then w else v)).find? (fun v => v.id == i) =
      some w := by
  have hui : u.id = i := by
    have := List.find?_some h
    simpa using this
  induction l with
  | nil => simp at h
  | cons a l ih =>
    simp only [List.find?_cons] at h
    simp only [List.map_cons, List.find?_cons]
    by_cases ha : (a.id == i) = true
    · simp only [ha, cond_true, Option.some.injEq] at h
      subst h
      have haw : (a.id == w.id) = true := by
        rw [beq_iff_eq] at ha ⊢
        omega
      have hwi : (w.id == i) = true := by
        rw [beq_iff_eq] at ha ⊢
        omega
      simp [haw, hwi]
    · have ha' : (a.id == i) = false := by simpa using ha
      simp only [ha', cond_false] at h
      have htail := ih h
      have haw : (a.id == w.id) = false := by
        rw [beq_eq_false_iff_ne] at ha' ⊢
        omega
      simp only [haw, Bool.false_eq_true, if_false, ha', cond_false]
      exact htail

/-- Saving an entity that carries the primary key of an existing row makes a
subsequent lookup of that key return the saved entity. -/
theorem findById_saveUser (store : Store) (i : Nat) (u w : UserRec)
    (hw : w.id = u.id) (h : findById store i = some u) :
    findById (saveUser store w) i = some w := by
  unfold findById at h ⊢
  unfold saveUser
  exact find?_map_replace store.users i u w hw h

/-- A present, non-empty body field is truthy. -/
theorem truthyStr_of_ne (s : String) (h : s ≠ "") : truthyStr (some s) = true := by
  have he : s.isEmpty = false := by
    rw [Bool.eq_false_iff]
    intro hc
    exact h (String.isEmpty_iff s |>.mp hc)
  simp [truthyStr, he]

/-- The guarded assignments of `updateUser` never touch the id, the password
hash or the timestamps, and leave each of name/role/email unchanged when the
corresponding body field is absent. -/
theorem applyUpdateFields_frame (body : UpdateBody) (u : UserRec) :
    (applyUpdateFields body u).id = u.id ∧
    (applyUpdateFields body u).password = u.password ∧
    (body.name = none → (applyUpdateFields body u).name = u.name) ∧
    (body.role = none → (applyUpdateFields body u).role = u.role) ∧
    (body.email = none → (applyUpdateFields body u).email = u.email) := by
  refine ⟨?_, ?_, ?_, ?_, ?_⟩
  · unfold applyUpdateFields
    split <;> split <;> split <;> rfl
  · unfold applyUpdateFields
    split <;> split <;> split <;> rfl
  · intro h
    unfold applyUpdateFields
    simp only [h, truthyStr, Bool.false_eq_true, if_false]
    split <;> split <;> rfl
  · intro h
    unfold applyUpdateFields
    simp only [h, truthyStr, Bool.false_and, Bool.false_eq_true, if_false]
    split <;> split <;> rfl
  · intro h
    unfold applyUpdateFields
    simp only [h, truthyStr, Bool.false_eq_true, if_false]
    split <;> split <;> rfl

/-- C4: the mounted `updateUser` (in `services/UserService.ts`) does NOT
fail on a role value that is invalid even after case-insensitive
normalization: the guard `if (role && isRole(role.toUpperCase()))` silently
skips the assignment, the save and the token re-issue proceed, and the
request succeeds with status 200 while the stored role is unchanged.  The
claim (and the spec's "rejected with an error, never silently coerced"
invariant, honoured by the newer `modules/user/user.service.ts` variant via
`toRole`, which the final conjunct shows throwing with the store untouched)
describes the intent; the mounted code is the slip. -/
theorem updateUser_serv_ignores_invalid_role
    (env : Env) (store : Store) (i : Nat) (u : UserRec) (r : String)
    (hi : i ≠ 0)
    (hu : findById store i = some u)
    (hr : r ≠ "")
    (hbad : isRole (jsToUpper r) = false)
    (hacc : env.accessSecret ≠ "")
    (href : env.refreshSecret ≠ "") :
    updateUser_serv env store (some i) ⟨none, none, some r⟩ =
      (.ok { status := 200
             cookieSet := some ⟨⟨u.id, u.name, u.role⟩, env.refreshSecret, false⟩
             cookieCleared := false
             bodyUsers := [[("id", Val.nat u.id), ("name", Val.str u.name), ("role", Val.str u.role)]]
             bodyAccessToken := some ⟨⟨u.id, u.name, u.role⟩, env.accessSecret, false⟩ }
       , saveUser store u) ∧
    findById (saveUser store u) i = some u ∧
    (updateUser_mod store i ⟨none, none, some r⟩ =
      (.error ⟨500, "Unknown role : " ++ r⟩, store) ∨ isRole r = true) := by
  have happ : applyUpdateFields ⟨none, none, some r⟩ u = u := by
    unfold applyUpdateFields
    simp [truthyStr, hbad]
  refine ⟨?_, findById_saveUser store i u u rfl hu, ?_⟩
  · have hid : truthyId (some i) = true := by simp [truthyId, hi]
    have ha : (env.accessSecret == "") = false := by simp [hacc]
    have hf : (env.refreshSecret == "") = false := by simp [href]
    simp only [updateUser_serv, hid, Bool.not_true, Bool.false_eq_true, if_false,
      Option.getD_some, hu, happ, prepareTokens, generateAccessToken,
      generateRefreshToken, ha, hf]
    rfl
  · by_cases hv : isRole r = true
    · exact Or.inr hv
    · left
      have hro : truthyStr (some r) = true := truthyStr_of_ne r hr
      have hr1 : (r == "ADMIN") = false := by
        simp only [isRole, Bool.or_eq_true] at hv
        simp only [Bool.eq_false_iff]
        intro hc
        exact hv (Or.inl hc)
      have hr2 : (r == "USER") = false := by
        simp only [isRole, Bool.or_eq_true] at hv
        simp only [Bool.eq_false_iff]
        intro hc
        exact hv (Or.inr hc)
      simp [updateUser_mod, hu, hro, toRole, hr1, hr2]

/-- Witness for C4: updating only the role, with the invalid value
"superuser", succeeds with status 200 and leaves alice's role "USER". -/
theorem updateUser_serv_ignores_invalid_role_witness :
    updateUser_serv refEnv refStore (some 5) ⟨none, none, some "superuser"⟩ =
      (.ok { status := 200
             cookieSet := some ⟨⟨5, "alice", "USER"⟩, "rs", false⟩
             cookieCleared := false
             bodyUsers := [[("id", Val.nat 5), ("name", Val.str "alice"), ("role", Val.str "USER")]]
             bodyAccessToken := some ⟨⟨5, "alice", "USER"⟩, "as", false⟩ }
       , saveUser refStore aliceRec) ∧
    findById (saveUser refStore aliceRec) 5 = some aliceRec ∧
    (updateUser_mod refStore 5 ⟨none, none, some "superuser"⟩ =
      (.error ⟨500, "Unknown role : superuser"⟩, refStore) ∨ isRole "superuser" = true) := by
  have h := updateUser_serv_ignores_invalid_role refEnv refStore 5 aliceRec "superuser"
    (by decide) (by decide) (by decide) (by decide) (by decide) (by decide)
  simpa using h

/-- C9: partial-update semantics of the mounted `updateUser`: any field
omitted from the request body is left unchanged — in particular a body
containing only `email` leaves `name` and `role` (and the id and password
hash) of the stored row as they were. -/
theorem updateUser_serv_frame
    (env : Env) (store : Store) (i : Nat) (u : UserRec) (body : UpdateBody)
    (hi : i ≠ 0) (hu : findById store i = some u) :
    ∃ u', findById (updateUser_serv env store (some i) body).2 i = some u' ∧
      u'.id = u.id ∧ u'.password = u.password ∧
      (body.name = none → u'.name = u.name) ∧
      (body.role = none → u'.role = u.role) ∧
      (body.email = none → u'.email = u.email) := by
  have hid : truthyId (some i) = true := by simp [truthyId, hi]
  obtain ⟨hI, hP, hN, hR, hE⟩ := applyUpdateFields_frame body u
  refine ⟨applyUpdateFields body u, ?_, hI, hP, hN, hR, hE⟩
  have hstore : (updateUser_serv env store (some i) body).2 =
      saveUser store (applyUpdateFields body u) := by
    simp [updateUser_serv, hid, hu]
  rw [hstore]
  exact findById_saveUser store i u (applyUpdateFields body u) hI hu

/-- Witness for C9: updating only alice's email leaves her name and role
(and id and password hash) unchanged. -/
theorem updateUser_serv_frame_witness :
    ∃ u', findById (updateUser_serv refEnv refStore (some 5)
        ⟨none, some "new@x.com", none⟩).2 5 = some u' ∧
      u'.id = aliceRec.id ∧ u'.password = aliceRec.password ∧
      ((none : Option String) = none → u'.name = aliceRec.name) ∧
      ((none : Option String) = none → u'.role = aliceRec.role) ∧
      ((some "new@x.com" : Option String) = none → u'.email = aliceRec.email) :=
  updateUser_serv_frame refEnv refStore 5 aliceRec ⟨none, some "new@x.com", none⟩
    (by decide) (by decide)

/-- A serialized user object carries no "password" key. -/
def rowNoPassword (row : List (String × Val)) : Bool :=
  row.all (fun kv => !(kv.1 == "password"))

/-- No user object in the response body carries a "password" key. -/
def respNoPassword (r : HttpResponse) : Bool := r.bodyUsers.all rowNoPassword

/-- `respNoPassword` for successful outcomes (vacuous for errors). -/
def okNoPassword : Except AppErr HttpResponse → Bool
  | .ok r => respNoPassword r
  | .error _ => true

/-- A `select`-restricted row carries exactly the selected keys. -/
theorem selectRow_noPassword (fields : List String) (u : UserRec) :
    rowNoPassword (selectRow fields u) = fields.all (fun f => !(f == "password")) := by
  unfold rowNoPassword selectRow
  induction fields with
  | nil => rfl
  | cons f fs ih => simp only [List.map_cons, List.all_cons, ih]

/-- The token-issuing response body exposes only id/name/role. -/
theorem prepareTokens_noPassword (env : Env) (st : Nat) (u : UserRec) :
    okNoPassword (prepareTokens env st u) = true := by
  unfold prepareTokens generateAccessToken generateRefreshToken
  by_cases h1 : (env.accessSecret == "") = true
  · rw [if_pos h1]
    rfl
  · rw [if_neg h1]
    by_cases h2 : (env.refreshSecret == "") = true
    · rw [if_pos h2]
      rfl
    · rw [if_neg h2]
      rfl

/-- C5: no successful response of the mounted read endpoints (profile read,
list-all-users, get-user-by-id) or of the token-issuing responses (register,
login, update) contains the stored password hash field: every serialized
user object is built from an explicit `select` list or the literal
`{ id, name, role }` of `prepareTokens`, none of which includes
"password". -/
theorem responses_never_contain_password
    (env : Env) (store : Store) (authId idParam : Option Nat)
    (ab : AuthBody) (ub : UpdateBody) :
    okNoPassword (getProfile store authId) = true ∧
    okNoPassword (getAllUser store) = true ∧
    okNoPassword (getUser store idParam) = true ∧
    okNoPassword (createUser env store ab).1 = true ∧
    okNoPassword (loginUser env store ab) = true ∧
    okNoPassword (updateUser_serv env store authId ub).1 = true := by
  refine ⟨?_, ?_, ?_, ?_, ?_, ?_⟩
  · unfold getProfile
    split
    · rfl
    · split
      · rfl
      · simp [okNoPassword, respNoPassword, selectRow_noPassword]
  · unfold getAllUser
    show (store.users.map
      (selectRow ["id", "name", "email", "role", "createdAt", "updatedAt"])).all
        rowNoPassword = true
    rw [List.all_eq_true]
    intro row hrow
    obtain ⟨u, _, rfl⟩ := List.mem_map.mp hrow
    rw [selectRow_noPassword]
    decide
  · unfold getUser
    split
    · rfl
    · split
      · rfl
      · simp [okNoPassword, respNoPassword, selectRow_noPassword]
  · unfold createUser
    split
    · rfl
    · split
      · rfl
      · split
        · rfl
        · split
          · rfl
          · exact prepareTokens_noPassword env 201 _
  · unfold loginUser
    split
    · rfl
    · cases htc : testCredentials env store ab.name ab.email (ab.password.getD "") with
      | error e => rfl
      | ok u =>
        show okNoPassword (prepareTokens env 200 u) = true
        exact prepareTokens_noPassword env 200 u
  · unfold updateUser_serv
    split
    · rfl
    · split
      · rfl
      · exact prepareTokens_noPassword env 200 _

/-- The claim-side description of the login flow, written from the spec's
words: 400 unless the password and at least one identifier are present; 404
when no user matches the supplied identifier; 401 when the password does not
match the stored hash; otherwise issue the token pair exactly as
registration does (the same `prepareTokens`, at status 200). -/
def loginSpec (env : Env) (store : Store) (body : AuthBody) : Except AppErr HttpResponse :=
  if !truthyStr body.password || (!truthyStr body.name && !truthyStr body.email) then
    .error ⟨400, "Invalid credentials."⟩
  else
    match (if truthyStr body.email then findByEmail store (body.email.getD "")
           else findByName store (body.name.getD "")) with
    | none => .error ⟨404, "Unable to find user."⟩
    | some u =>
      if !env.cmp (body.password.getD "") u.password then
        .error ⟨401, "Incorrect password."⟩
      else prepareTokens env 200 u

/-- C6: the mounted login handler realizes exactly the claimed flow:
missing password or both identifiers missing → 400; no matching user → 404;
password mismatch → 401; otherwise the same token issuance as registration
(`prepareTokens`: access token in the body plus the scoped refresh-token
cookie), at status 200. -/
theorem loginUser_eq_loginSpec (env : Env) (store : Store) (body : AuthBody) :
    loginUser env store body = loginSpec env store body := by
  unfold loginUser loginSpec testCredentials
  by_cases hg : (!truthyStr body.password || (!truthyStr body.name && !truthyStr body.email)) = true
  · simp only [hg, if_true]
    rfl
  · simp only [hg, Bool.false_eq_true, if_false]
    cases hu : (if truthyStr body.email = true then findByEmail store (body.email.getD "")
                else findByName store (body.name.getD "")) with
    | none => rfl
    | some u =>
      by_cases hc : (!env.cmp (body.password.getD "") u.password) = true <;>
        simp only [hc, Bool.false_eq_true, if_false, if_true] <;> rfl

/-- C7: the refresh endpoint: 400 when the scoped cookie is absent, 401 when
its token does not verify against the refresh secret (unparsable, wrong
secret, or expired), and on success a response whose only token is one newly
minted access token carrying the decoded refresh token's payload
(id, name, role), with no `Set-Cookie` — the refresh token is not rotated. -/
theorem refreshHandler_behaviour (env : Env) (s : String) (tok : SignedToken) :
    refreshHandler env none = .error ⟨400, "Missing refresh token."⟩ ∧
    (s ≠ "" → env.decode s = none →
      refreshHandler env (some s) = .error ⟨401, "Invalid or expired refresh token"⟩) ∧
    (s ≠ "" → env.decode s = some tok →
      (tok.secret == env.refreshSecret && !tok.expired) = false →
      refreshHandler env (some s) = .error ⟨401, "Invalid or expired refresh token"⟩) ∧
    (s ≠ "" → env.decode s = some tok → tok.secret = env.refreshSecret →
      tok.expired = false → env.accessSecret ≠ "" →
      refreshHandler env (some s) =
        .ok { status := 200
              cookieSet := none
              cookieCleared := false
              bodyUsers := []
              bodyAccessToken :=
                some ⟨⟨tok.payload.id, tok.payload.name, tok.payload.role⟩,
                      env.accessSecret, false⟩ }) := by
  refine ⟨rfl, ?_, ?_, ?_⟩
  · intro hs hd
    have ht := truthyStr_of_ne s hs
    simp only [refreshHandler, ht, verifyRefreshToken, Option.getD_some, hd,
      Bool.not_true, Bool.false_eq_true, if_false]
    rfl
  · intro hs hd hbad
    have ht := truthyStr_of_ne s hs
    simp only [refreshHandler, ht, verifyRefreshToken, Option.getD_some, hd, hbad,
      Bool.not_true, Bool.false_eq_true, if_false]
    rfl
  · intro hs hd hsec hexp hacc
    have ht := truthyStr_of_ne s hs
    have ha : (env.accessSecret == "") = false := by simp [hacc]
    have hok : (tok.secret == env.refreshSecret && !tok.expired) = true := by
      simp [hsec, hexp]
    simp only [refreshHandler, ht, verifyRefreshToken, Option.getD_some, hd, hok,
      Bool.not_true, Bool.false_eq_true, if_false, if_true, generateAccessToken, ha]
    rfl

/-- Witness for C7: with `refEnv`, a missing cookie 400s, an unparsable
cookie 401s, an access token presented as refresh token 401s, and the valid
refresh token "ref5" yields exactly one new access token for alice with no
cookie set. -/
theorem refreshHandler_behaviour_witness :
    refreshHandler refEnv none = .error ⟨400, "Missing refresh token."⟩ ∧
    refreshHandler refEnv (some "bad") = .error ⟨401, "Invalid or expired refresh token"⟩ ∧
    refreshHandler refEnv (some "acc7") = .error ⟨401, "Invalid or expired refresh token"⟩ ∧
    refreshHandler refEnv (some "ref5") =
      .ok { status := 200
            cookieSet := none
            cookieCleared := false
            bodyUsers := []
            bodyAccessToken := some ⟨⟨5, "alice", "USER"⟩, "as", false⟩ } := by
  refine ⟨(refreshHandler_behaviour refEnv "bad" ⟨⟨0, "", ""⟩, "", false⟩).1,
    (refreshHandler_behaviour refEnv "bad" ⟨⟨0, "", ""⟩, "", false⟩).2.1
      (by decide) (by decide),
    (refreshHandler_behaviour refEnv "acc7" ⟨⟨7, "ghost", "USER"⟩, "as", false⟩).2.2.1
      (by decide) (by decide) (by decide),
    (refreshHandler_behaviour refEnv "ref5" ⟨⟨5, "alice", "USER"⟩, "rs", false⟩).2.2.2
      (by decide) (by decide) rfl rfl (by decide)⟩

/-- Counterexample for C8: a registration request whose password "short1"
fails the policy but whose email collides with an existing account fails
with the 409 conflict error, not with the claimed 400 validation error (the
conflict checks run before the policy check); the store is unmutated. -/
theorem register_bad_password_conflict_counterexample :
    passwordRegexTestStr "short1" = false ∧
    createUser refEnv refStore ⟨some "bob", some "alice@x.com", some "short1"⟩ =
      (.error ⟨409,
        "E-mail :alice@x.com is already in use, please try a different one."⟩,
       refStore) := by
  constructor
  · decide
  · rfl

/-- C8 (amended): for every registration request and every password-change
request whose (new) password fails the policy regex, the operation fails
with some error and the store is not mutated; the error is the 400 "Invalid
password format." one whenever no earlier check fails first (for
registration: all three fields present and no email/name conflict; for
password change: logged in, row present, current password correct). -/
theorem bad_password_no_mutation
    (env : Env) (store : Store) (ab : AuthBody) (authId : Option Nat)
    (pw npw : Option String)
    (h1 : passwordRegexTestStr (ab.password.getD "") = false)
    (h2 : passwordRegexTestStr (npw.getD "") = false) :
    ((createUser env store ab).2 = store ∧
     (∃ e, (createUser env store ab).1 = .error e) ∧
     (truthyStr ab.name = true → truthyStr ab.email = true →
      truthyStr ab.password = true →
      findByEmail store (ab.email.getD "") = none →
      findByName store (ab.name.getD "") = none →
      (createUser env store ab).1 = .error ⟨400, "Invalid password format."⟩)) ∧
    ((updatePassword_serv env store authId pw npw).2 = store ∧
     (∃ e, (updatePassword_serv env store authId pw npw).1 = .error e) ∧
     (truthyId authId = true → ∀ u, findById store (authId.getD 0) = some u →
      env.cmp (pw.getD "") u.password = true →
      (updatePassword_serv env store authId pw npw).1 =
        .error ⟨400, "Invalid password format."⟩)) := by
  constructor
  · by_cases hn : (!truthyStr ab.name || !truthyStr ab.email || !truthyStr ab.password) = true
    · unfold createUser
      refine ⟨by rw [if_pos hn], ⟨_, by rw [if_pos hn]⟩, ?_⟩
      intro htn hte htp _ _
      rw [htn, hte, htp] at hn
      simp at hn
    · by_cases he : (findByEmail store (ab.email.getD "")).isSome = true
      · unfold createUser
        rw [if_neg hn, if_pos he]
        refine ⟨rfl, ⟨_, rfl⟩, ?_⟩
        intro _ _ _ hno _
        rw [hno] at he
        simp at he
      · by_cases hm : (findByName store (ab.name.getD "")).isSome = true
        · unfold createUser
          rw [if_neg hn, if_neg he, if_pos hm]
          refine ⟨rfl, ⟨_, rfl⟩, ?_⟩
          intro _ _ _ _ hno
          rw [hno] at hm
          simp at hm
        · unfold createUser
          rw [if_neg hn, if_neg he, if_neg hm,
            if_pos (show (!passwordRegexTestStr (ab.password.getD "")) = true by
              rw [h1]; rfl)]
          exact ⟨rfl, ⟨_, rfl⟩, fun _ _ _ _ _ => rfl⟩
  · by_cases ha : truthyId authId = true
    · have hga : ¬((!truthyId authId) = true) := by rw [ha]; simp
      cases hu : findById store (authId.getD 0) with
      | none =>
        unfold updatePassword_serv
        rw [if_neg hga, hu]
        refine ⟨rfl, ⟨_, rfl⟩, ?_⟩
        intro _ u' hu' _
        simp at hu'
      | some u =>
        by_cases hc : (!env.cmp (pw.getD "") u.password) = true
        · unfold updatePassword_serv
          rw [if_neg hga]
          simp only [hu]
          rw [if_pos hc]
          refine ⟨rfl, ⟨_, rfl⟩, ?_⟩
          intro _ u' hu' hcmp
          cases hu'
          rw [hcmp] at hc
          simp at hc
        · unfold updatePassword_serv
          rw [if_neg hga]
          simp only [hu]
          rw [if_neg hc,
            if_pos (show (!passwordRegexTestStr (npw.getD "")) = true by
              rw [h2]; rfl)]
          exact ⟨rfl, ⟨_, rfl⟩, fun _ _ _ _ => rfl⟩
    · have hf : truthyId authId = false := by
        cases hq : truthyId authId
        · rfl
        · exact absurd hq ha
      unfold updatePassword_serv
      rw [if_pos (show (!truthyId authId) = true by rw [hf]; rfl)]
      refine ⟨rfl, ⟨_, rfl⟩, ?_⟩
      intro hq
      rw [hq] at hf
      exact absurd hf (by simp)


/-- Witness for C8: a conflict-free registration with the failing password
"short1" returns the 400 validation error and leaves the store unchanged,
and so does alice's password change to "short1" with the correct current
password. -/
theorem bad_password_no_mutation_witness :
    (createUser refEnv refStore ⟨some "bob", some "bob@x.com", some "short1"⟩).1 =
      .error ⟨400, "Invalid password format."⟩ ∧
    (createUser refEnv refStore ⟨some "bob", some "bob@x.com", some "short1"⟩).2 =
      refStore ∧
    (updatePassword_serv refEnv refStore (some 5)
        (some "Passw0rd!") (some "short1")).1 =
      .error ⟨400, "Invalid password format."⟩ ∧
    (updatePassword_serv refEnv refStore (some 5)
        (some "Passw0rd!") (some "short1")).2 = refStore := by
  have h := bad_password_no_mutation refEnv refStore
    ⟨some "bob", some "bob@x.com", some "short1"⟩ (some 5)
    (some "Passw0rd!") (some "short1") (by decide) (by decide)
  exact ⟨h.1.2.2 (by decide) (by decide) (by decide) (by decide) (by decide),
    h.1.1,
    h.2.2.2 (by decide) aliceRec (by decide) (by decide),
    h.2.1⟩

/-- C10: when a truthy email is supplied, `testCredentials` looks the user
up by the email alone: the supplied name is never used — two requests
differing only in the name behave identically — and the outcome is exactly
the email lookup followed by the hash comparison. -/
theorem testCredentials_email_only (env : Env) (store : Store)
    (n₁ n₂ : Option String) (e : Option String) (p : String)
    (he : truthyStr e = true) :
    testCredentials env store n₁ e p = testCredentials env store n₂ e p ∧
    testCredentials env store n₁ e p =
      (match findByEmail store (e.getD "") with
       | none => .error ⟨404, "Unable to find user."⟩
       | some u =>
         if !env.cmp p u.password then .error ⟨401, "Incorrect password."⟩
         else .ok u) := by
  constructor
  · simp [testCredentials, he]
  · simp [testCredentials, he]

/-- Witness for C10: with a truthy email matching alice and a name that
matches nobody, the lookup is by email: both name variants log alice in. -/
theorem testCredentials_email_only_witness :
    testCredentials refEnv refStore (some "nobody") (some "alice@x.com") "Passw0rd!" =
      testCredentials refEnv refStore (some "zoe") (some "alice@x.com") "Passw0rd!" ∧
    testCredentials refEnv refStore (some "nobody") (some "alice@x.com") "Passw0rd!" =
      (match findByEmail refStore "alice@x.com" with
       | none => .error ⟨404, "Unable to find user."⟩
       | some u =>
         if !refEnv.cmp "Passw0rd!" u.password then .error ⟨401, "Incorrect password."⟩
         else .ok u) :=
  testCredentials_email_only refEnv refStore (some "nobody") (some "zoe")
    (some "alice@x.com") "Passw0rd!" (by decide)

/-! ## Characterization of the password regex (C3) -/

/-- A starred character class with nothing after it matches (any prefix,
in particular the empty one, will do). -/
theorem rmatch_many_nil_token (f : Char → Bool) (s : List Char) :
    rmatch [RTok.many f] s = true := by
  simp only [rmatch, List.any_eq_true, List.mem_range]
  exact ⟨0, by omega, by simp [rmatch]⟩

/-- `[many f, atEnd]` (the trailing `.*$`) matches iff the whole remaining
input consists of `f`-characters. -/
theorem rmatch_many_atEnd_iff (f : Char → Bool) (s : List Char) :
    rmatch [RTok.many f, RTok.atEnd] s = true ↔ s.all f = true := by
  simp only [rmatch, List.any_eq_true, List.mem_range, Bool.and_eq_true]
  constructor
  · rintro ⟨i, hi, hall, hrest, -⟩
    have hdrop : s.drop i = [] := by
      simpa using hrest
    have hlen : s.length ≤ i := by
      simpa [List.drop_eq_nil_iff] using hdrop
    rwa [List.take_of_length_le hlen] at hall
  · intro h
    refine ⟨s.length, by omega, ?_, ?_, trivial⟩
    · rwa [List.take_length]
    · simp [List.drop_length]

/-- `[many f, one g]` (the lookahead body `.*[class]`) matches a prefix iff
the input decomposes as an `f`-run followed by a `g`-character. -/
theorem rmatch_many_one_iff (f g : Char → Bool) (s : List Char) :
    rmatch [RTok.many f, RTok.one g] s = true ↔
      ∃ pre c suf, s = pre ++ c :: suf ∧ pre.all f = true ∧ g c = true := by
  simp only [rmatch, List.any_eq_true, List.mem_range, Bool.and_eq_true]
  constructor
  · rintro ⟨i, hi, hall, hone⟩
    cases hdrop : s.drop i with
    | nil =>
      rw [hdrop] at hone
      simp at hone
    | cons c t =>
      rw [hdrop] at hone
      simp only [Bool.and_eq_true] at hone
      refine ⟨s.take i, c, t, ?_, hall, ?_⟩
      · rw [← hdrop, List.take_append_drop]
      · exact hone.1
  · rintro ⟨pre, c, suf, rfl, hpre, hc⟩
    refine ⟨pre.length, ?_, ?_, ?_⟩
    · simp
      omega
    · rwa [List.take_left]
    · rw [List.drop_left]
      simp [hc, rmatch]

/-- `lookLen8` (the lookahead body `.{8,}`) matches a prefix iff at least 8
characters remain and the first 8 are dot-characters. -/
theorem rmatch_lookLen8_iff (s : List Char) :
    rmatch lookLen8 s = true ↔ 8 ≤ s.length ∧ (s.take 8).all jsDot = true := by
  unfold lookLen8
  rcases s with - | ⟨c1, s⟩
  · simp [rmatch]
  rcases s with - | ⟨c2, s⟩
  · simp [rmatch]
  rcases s with - | ⟨c3, s⟩
  · simp [rmatch]
  rcases s with - | ⟨c4, s⟩
  · simp [rmatch]
  rcases s with - | ⟨c5, s⟩
  · simp [rmatch]
  rcases s with - | ⟨c6, s⟩
  · simp [rmatch]
  rcases s with - | ⟨c7, s⟩
  · simp [rmatch]
  rcases s with - | ⟨c8, s⟩
  · simp [rmatch]
  simp [rmatch, List.all_cons, and_assoc]
  intros
  exact ⟨0, by omega, by simp⟩

/-- C3 (amended): the mounted password policy accepts a string iff it has no
line-terminator character AND satisfies the claim's conditions (length at
least 8, an ASCII letter, a digit, and a symbol from the fixed set): in JS,
the dot atoms and the `$` anchor cannot cross a line terminator, so the
pattern additionally demands an all-dot string. -/
theorem passwordRegex_characterization (s : List Char) :
    passwordRegexTest s = true ↔ (s.all jsDot = true ∧ claimedPasswordOk s = true) := by
  unfold passwordRegexTest claimedPasswordOk
  constructor
  · intro h
    simp only [List.any_eq_true, List.mem_range, Bool.and_eq_true] at h
    obtain ⟨i, hi, ⟨⟨⟨⟨htake, h8⟩, hlet⟩, hdig⟩, hsym⟩, hrest⟩ := h
    have hdropall : (s.drop i).all jsDot = true :=
      (rmatch_many_atEnd_iff jsDot (s.drop i)).mp hrest
    have hall : s.all jsDot = true := by
      rw [← List.take_append_drop i s, List.all_append]
      simp [htake, hdropall]
    have hlen : 8 ≤ s.length := by
      have := ((rmatch_lookLen8_iff (s.drop i)).mp h8).1
      simp only [List.length_drop] at this
      omega
    have hmem : ∀ (g : Char → Bool),
        rmatch [RTok.many jsDot, RTok.one g] (s.drop i) = true →
        s.any g = true := by
      intro g hg
      obtain ⟨pre, c, suf, heq, -, hc⟩ := (rmatch_many_one_iff jsDot g (s.drop i)).mp hg
      have hcs : c ∈ s := by
        have h1 : c ∈ s.drop i := by
          rw [heq]
          exact List.mem_append_right pre (List.mem_cons_self c suf)
        exact List.drop_subset i s h1
      rw [List.any_eq_true]
      exact ⟨c, hcs, hc⟩
    refine ⟨hall, ?_⟩
    simp only [Bool.and_eq_true, decide_eq_true_eq]
    exact ⟨⟨⟨hlen, hmem asciiLetter hlet⟩, hmem asciiDigit hdig⟩, hmem pwdSymbol hsym⟩
  · rintro ⟨hall, hcond⟩
    simp only [Bool.and_eq_true, decide_eq_true_eq] at hcond
    obtain ⟨⟨⟨hlen, hlet⟩, hdig⟩, hsym⟩ := hcond
    simp only [List.any_eq_true, List.mem_range, Bool.and_eq_true]
    refine ⟨0, by omega, ⟨⟨⟨⟨?_, ?_⟩, ?_⟩, ?_⟩, ?_⟩, ?_⟩
    · simp
    · rw [List.drop_zero, rmatch_lookLen8_iff]
      refine ⟨hlen, ?_⟩
      rw [List.all_eq_true] at hall ⊢
      intro c hc
      exact hall c (List.take_subset 8 s hc)
    · rw [List.drop_zero]
      unfold lookLetter
      rw [rmatch_many_one_iff]
      rw [List.any_eq_true] at hlet
      obtain ⟨c, hcs, hc⟩ := hlet
      obtain ⟨pre, suf, rfl⟩ := List.append_of_mem hcs
      have hall' := hall
      simp only [List.all_append, Bool.and_eq_true] at hall'
      exact ⟨pre, c, suf, rfl, hall'.1, hc⟩
    · rw [List.drop_zero]
      unfold lookDigit
      rw [rmatch_many_one_iff]
      rw [List.any_eq_true] at hdig
      obtain ⟨c, hcs, hc⟩ := hdig
      obtain ⟨pre, suf, rfl⟩ := List.append_of_mem hcs
      have hall' := hall
      simp only [List.all_append, Bool.and_eq_true] at hall'
      exact ⟨pre, c, suf, rfl, hall'.1, hc⟩
    · rw [List.drop_zero]
      unfold lookSymbol
      rw [rmatch_many_one_iff]
      rw [List.any_eq_true] at hsym
      obtain ⟨c, hcs, hc⟩ := hsym
      obtain ⟨pre, suf, rfl⟩ := List.append_of_mem hcs
      have hall' := hall
      simp only [List.all_append, Bool.and_eq_true] at hall'
      exact ⟨pre, c, suf, rfl, hall'.1, hc⟩
    · rw [List.drop_zero, rmatch_many_atEnd_iff]
      exact hall

/-- Counterexample for C3: the string "a1!aaaa\nx" satisfies every condition
of the claim (length 9, letter 'a', digit '1', symbol '!') yet the
passwordRegex rejects it, because `.`/`$` cannot match across the newline.
So the claimed iff is false as stated. -/
theorem passwordRegex_claim_counterexample :
    claimedPasswordOk ("a1!aaaa\nx".data) = true ∧
    passwordRegexTestStr "a1!aaaa\nx" = false := by
  constructor
  · decide
  · decide

end ExpressPlate
